import Mathlib

/-! Shallow embedding of `micrograd/value.py`.

Nodes of the computation graph live in an arena (`Graph`), addressed by
their creation index; this models Python object identity.  Each `Node`
stores the forward value `data`, the operand collection `prev` (the
source stores `self._prev = set(_children)`; the set is modelled as the
duplicate-free list `children.dedup`), the diagnostic tag `tag`
(Python `_op`), the gradient accumulator `grad`, and `op`, which models
the `_backward` closure: the operation kind together with the node
indices and captured constants the closure uses.

The scalar type is a parameter `α`; claims about graphs built only from
leaves, `+`, `*` and negation are stated over any commutative ring,
while `**`, `exp` and `tanh` are modelled over `ℝ` (Python floats
idealised as real numbers).  The backward rule of `**` evaluates
`n**(exponent - 1)` on the scalars; that power function is passed
explicitly as `p` and instantiated with real `rpow` on `ℝ`. -/

namespace Micrograd

/-- Exceptions the Python code can raise while building a power node:
`float(complex)` raises `TypeError` (negative base, non-integer
exponent, where `**` returns a complex number), and `0.0 ** k` for
`k < 0` raises `ZeroDivisionError`. -/
inductive PyErr where
  | typeError
  | zeroDivisionError
deriving DecidableEq

/-- Operation kind of a node, modelling the `_backward` closure attached
by each overload in `value.py`: the constructor records the arena
indices of the nodes the closure captures, plus captured constants
(the exponent for `pow`, `t.data` for `tanh`). -/
inductive Op (α : Type) where
  | leaf
  | neg (a : Nat)
  | add (a b : Nat)
  | mul (a b : Nat)
  | pow (a : Nat) (k : α)
  | exp (a : Nat)
  | tanh (a : Nat) (t : α)
deriving DecidableEq

/-- Arena indices of the nodes captured by the backward closure; for
every overload in `value.py` this is exactly the `_children` tuple
passed to `Value.__init__`. -/
def Op.children {α : Type} : Op α → List Nat
  | .leaf => []
  | .neg a => [a]
  | .add a b => [a, b]
  | .mul a b => [a, b]
  | .pow a _ => [a]
  | .exp a => [a]
  | .tanh a _ => [a]

/-- One `Value` object: forward value `data`, stored operand set `prev`
(Python `_prev`), diagnostic tag (Python `_op`), backward closure model
`op`, and the gradient accumulator `grad`. -/
structure Node (α : Type) where
  data : α
  prev : List Nat
  op : Op α
  tag : String
  grad : α
deriving DecidableEq

/-- The arena of all `Value` objects created so far, in creation order. -/
structure Graph (α : Type) where
  nodes : List (Node α)
deriving DecidableEq

namespace Graph

variable {α : Type}

/-- Empty arena. -/
def empty : Graph α := ⟨[]⟩

/-- Number of nodes created so far. -/
def size (g : Graph α) : Nat := g.nodes.length

/-- Forward value of node `i` (0 for an index no node has). -/
def dataAt [Zero α] (g : Graph α) (i : Nat) : α :=
  match g.nodes[i]? with
  | some n => n.data
  | none => 0

/-- Gradient of node `i` (0 for an index no node has). -/
def gradAt [Zero α] (g : Graph α) (i : Nat) : α :=
  match g.nodes[i]? with
  | some n => n.grad
  | none => 0

/-- Stored operand set (`_prev`) of node `i`. -/
def prevAt (g : Graph α) (i : Nat) : List Nat :=
  match g.nodes[i]? with
  | some n => n.prev
  | none => []

/-- Backward-closure model of node `i`. -/
def opAt (g : Graph α) (i : Nat) : Op α :=
  match g.nodes[i]? with
  | some n => n.op
  | none => .leaf

/-- Diagnostic tag (`_op`) of node `i`. -/
def tagAt (g : Graph α) (i : Nat) : String :=
  match g.nodes[i]? with
  | some n => n.tag
  | none => ""

/-- Overwrite the gradient of node `i` (`v.grad = x` in Python). -/
def setGrad (g : Graph α) (i : Nat) (v : α) : Graph α :=
  match g.nodes[i]? with
  | some n => ⟨g.nodes.set i { n with grad := v }⟩
  | none => g

/-- Accumulate into the gradient of node `i` (`v.grad += x`). -/
def addGrad [Zero α] [Add α] (g : Graph α) (i : Nat) (v : α) : Graph α :=
  g.setGrad i (g.gradAt i + v)

/-- Model of `Value.__init__`: append a node whose `_prev` is
`set(_children)` (modelled as `children.dedup`) and whose gradient
starts at `0.0`; return the new arena and the index of the new node. -/
def mkNode [Zero α] (g : Graph α) (d : α) (children : List Nat) (op : Op α)
    (tag : String) : Graph α × Nat :=
  (⟨g.nodes ++ [{ data := d, prev := children.dedup, op := op, tag := tag, grad := 0 }]⟩,
    g.size)

/-- Leaf construction `Value(d)`. -/
def leaf [Zero α] (g : Graph α) (d : α) : Graph α × Nat :=
  g.mkNode d [] .leaf ""

/-- Model of `Value.__neg__`. -/
def negNode [Zero α] [Neg α] (g : Graph α) (a : Nat) : Graph α × Nat :=
  g.mkNode (-(g.dataAt a)) [a] (.neg a) "neg"

/-- Model of `Value.__add__` applied to two existing nodes (a plain
number argument is first coerced to a leaf by the caller, as
`Value.__add__` does with `Value(other)`). -/
def addNode [Zero α] [Add α] (g : Graph α) (a b : Nat) : Graph α × Nat :=
  g.mkNode (g.dataAt a + g.dataAt b) [a, b] (.add a b) "+"

/-- Model of `Value.__mul__` applied to two existing nodes. -/
def mulNode [Zero α] [Mul α] (g : Graph α) (a b : Nat) : Graph α × Nat :=
  g.mkNode (g.dataAt a * g.dataAt b) [a, b] (.mul a b) "*"

/-- Model of one `node._backward()` call: dispatch on the closure kind
and perform exactly the `+=` statements of the corresponding closure in
`value.py`, re-reading `out.grad` (and the immutable `data` fields)
from the current state at each statement just as the closures do.
`p n k` models the Python float power `n**k` appearing in the closure
of `__pow__` (instantiated with real `rpow` over `ℝ`; Python can raise
there for base `0.0` and exponent below `1`, a corner no constructed
graph of the claims reaches, which the total `p` idealises away). -/
def applyBackward [CommRing α] (p : α → α → α) (g : Graph α) (i : Nat) : Graph α :=
  match g.opAt i with
  | .leaf => g
  | .neg a => g.addGrad a (-(g.gradAt i))
  | .add a b =>
      let g1 := g.addGrad a (g.gradAt i)
      g1.addGrad b (g1.gradAt i)
  | .mul a b =>
      let g1 := g.addGrad a (g.dataAt b * g.gradAt i)
      g1.addGrad b (g1.dataAt a * g1.gradAt i)
  | .pow a k => g.addGrad a (k * p (g.dataAt a) (k - 1) * g.gradAt i)
  | .exp a => g.addGrad a (g.dataAt i * g.gradAt i)
  | .tanh a t => g.addGrad a ((1 - t ^ 2) * g.gradAt i)

/-- Model of the recursive `build_topo` of `Value.backward`.  The state
is `(visited, topo)`.  Python recursion is modelled with explicit fuel;
`backward` passes `g.size` fuel, which suffices because in every arena
built by the constructors each operand index is smaller than the index
of the node that records it, so the depth-first recursion strictly
descends in the index. -/
def buildTopo (g : Graph α) : Nat → Nat → List Nat × List Nat → List Nat × List Nat
  | 0, _, st => st
  | fuel + 1, v, (visited, topo) =>
      if v ∈ visited then (visited, topo)
      else
        let st := (g.prevAt v).foldl (fun st c => g.buildTopo fuel c st) (v :: visited, topo)
        (st.1, st.2 ++ [v])

/-- The topological order that `Value.backward` builds from `root`. -/
def backwardTopo (g : Graph α) (root : Nat) : List Nat :=
  (g.buildTopo g.size root ([], [])).2

/-- Model of `Value.backward`: build the topological order, seed the
root gradient with `1.0` (an overwrite, `self.grad = 1.0`), then run
every `_backward` closure in reverse topological order. -/
def backward [CommRing α] (p : α → α → α) (g : Graph α) (root : Nat) : Graph α :=
  let topo := g.backwardTopo root
  let g1 := g.setGrad root 1
  topo.reverse.foldl (fun h n => h.applyBackward p n) g1

/-- Reachability along stored operand edges: `Reach g r i` holds when
`i` is `r` itself or a (transitive) operand of `r`. -/
def Reach (g : Graph α) (r i : Nat) : Prop :=
  Relation.ReflTransGen (fun x y => y ∈ g.prevAt x) r i

/-- Every stored operand index is smaller than the index of the node
recording it.  Every arena built by the constructors satisfies this; it
is the arena form of acyclicity of the operand relation. -/
def Lowered (g : Graph α) : Prop :=
  ∀ i < g.size, ∀ j ∈ g.prevAt i, j < i

/-- The stored operand set agrees with the operands captured by the
backward closure, as it does for every constructor in `value.py`
(`_prev = set(_children)` with the closure capturing `_children`). -/
def WF (g : Graph α) : Prop :=
  ∀ i < g.size, g.prevAt i = (g.opAt i).children.dedup

instance (g : Graph α) : Decidable (g.Lowered) := by
  unfold Lowered; infer_instance

instance [DecidableEq α] (g : Graph α) : Decidable (g.WF) := by
  unfold WF; infer_instance

/-! Accessor lemmas: how the five field readers interact with `setGrad`,
`addGrad` and `mkNode`. -/

theorem prevAt_eq_nil_of_le (g : Graph α) {i : Nat} (h : g.size ≤ i) : g.prevAt i = [] := by
  unfold prevAt
  rw [List.getElem?_len_le h]

theorem lowered_lt {g : Graph α} (hL : g.Lowered) {i j : Nat} (hj : j ∈ g.prevAt i) : j < i := by
  by_cases hi : i < g.size
  · exact hL i hi j hj
  · rw [g.prevAt_eq_nil_of_le (le_of_not_lt hi)] at hj
    simp at hj

theorem getElem?_setGrad (g : Graph α) (i j : Nat) (v : α) :
    (g.setGrad i v).nodes[j]? =
      if i = j then (g.nodes[j]?).map (fun n => { n with grad := v }) else g.nodes[j]? := by
  unfold setGrad
  split
  · next n h =>
    have hi : i < g.nodes.length := (List.getElem?_eq_some.mp h).1
    by_cases hij : i = j
    · subst hij
      simp [List.getElem?_set, hi, h]
    · simp [List.getElem?_set, hij]
  · next h =>
    by_cases hij : i = j
    · subst hij
      simp [h]
    · simp [hij]

theorem size_setGrad (g : Graph α) (i : Nat) (v : α) : (g.setGrad i v).size = g.size := by
  unfold setGrad
  cases h : g.nodes[i]? with
  | none => rfl
  | some n => simp [size]

theorem dataAt_setGrad [Zero α] (g : Graph α) (i j : Nat) (v : α) :
    (g.setGrad i v).dataAt j = g.dataAt j := by
  unfold dataAt
  rw [getElem?_setGrad]
  by_cases hij : i = j
  · rw [if_pos hij]
    cases g.nodes[j]? <;> rfl
  · rw [if_neg hij]

theorem prevAt_setGrad (g : Graph α) (i j : Nat) (v : α) :
    (g.setGrad i v).prevAt j = g.prevAt j := by
  unfold prevAt
  rw [getElem?_setGrad]
  by_cases hij : i = j
  · rw [if_pos hij]
    cases g.nodes[j]? <;> rfl
  · rw [if_neg hij]

theorem opAt_setGrad (g : Graph α) (i j : Nat) (v : α) :
    (g.setGrad i v).opAt j = g.opAt j := by
  unfold opAt
  rw [getElem?_setGrad]
  by_cases hij : i = j
  · rw [if_pos hij]
    cases g.nodes[j]? <;> rfl
  · rw [if_neg hij]

theorem tagAt_setGrad (g : Graph α) (i j : Nat) (v : α) :
    (g.setGrad i v).tagAt j = g.tagAt j := by
  unfold tagAt
  rw [getElem?_setGrad]
  by_cases hij : i = j
  · rw [if_pos hij]
    cases g.nodes[j]? <;> rfl
  · rw [if_neg hij]

theorem gradAt_setGrad_self [Zero α] (g : Graph α) {i : Nat} (v : α) (h : i < g.size) :
    (g.setGrad i v).gradAt i = v := by
  unfold gradAt
  rw [getElem?_setGrad, if_pos rfl, List.getElem?_eq_getElem h]
  rfl

theorem gradAt_setGrad_ne [Zero α] (g : Graph α) {i j : Nat} (v : α) (h : i ≠ j) :
    (g.setGrad i v).gradAt j = g.gradAt j := by
  unfold gradAt
  rw [getElem?_setGrad, if_neg h]

theorem size_addGrad [Zero α] [Add α] (g : Graph α) (i : Nat) (v : α) :
    (g.addGrad i v).size = g.size := g.size_setGrad i _

theorem dataAt_addGrad [Zero α] [Add α] (g : Graph α) (i j : Nat) (v : α) :
    (g.addGrad i v).dataAt j = g.dataAt j := g.dataAt_setGrad i j _

theorem prevAt_addGrad [Zero α] [Add α] (g : Graph α) (i j : Nat) (v : α) :
    (g.addGrad i v).prevAt j = g.prevAt j := g.prevAt_setGrad i j _

theorem opAt_addGrad [Zero α] [Add α] (g : Graph α) (i j : Nat) (v : α) :
    (g.addGrad i v).opAt j = g.opAt j := g.opAt_setGrad i j _

theorem tagAt_addGrad [Zero α] [Add α] (g : Graph α) (i j : Nat) (v : α) :
    (g.addGrad i v).tagAt j = g.tagAt j := g.tagAt_setGrad i j _

theorem gradAt_addGrad_self [Zero α] [Add α] (g : Graph α) {i : Nat} (v : α) (h : i < g.size) :
    (g.addGrad i v).gradAt i = g.gradAt i + v := g.gradAt_setGrad_self _ h

theorem gradAt_addGrad_ne [Zero α] [Add α] (g : Graph α) {i j : Nat} (v : α) (h : i ≠ j) :
    (g.addGrad i v).gradAt j = g.gradAt j := g.gradAt_setGrad_ne _ h

theorem getElem?_mkNode [Zero α] (g : Graph α) (d : α) (ch : List Nat) (op : Op α)
    (tag : String) (i : Nat) :
    ((g.mkNode d ch op tag).1).nodes[i]? =
      if i = g.size then
        some { data := d, prev := ch.dedup, op := op, tag := tag, grad := 0 }
      else g.nodes[i]? := by
  have hsize : g.size = g.nodes.length := rfl
  unfold mkNode
  dsimp only
  by_cases h : i = g.size
  · subst h
    rw [if_pos rfl, hsize, List.getElem?_concat_length]
  · rw [if_neg h, hsize] at *
    rcases Nat.lt_or_ge i g.nodes.length with hlt | hge
    · rw [List.getElem?_append_left hlt]
    · have h1 : g.nodes.length < i := by omega
      rw [List.getElem?_len_le (l := g.nodes ++ _) (by simp; omega),
          List.getElem?_len_le hge]

theorem size_mkNode [Zero α] (g : Graph α) (d : α) (ch : List Nat) (op : Op α) (tag : String) :
    (g.mkNode d ch op tag).1.size = g.size + 1 := by
  unfold mkNode size
  simp

theorem idx_mkNode [Zero α] (g : Graph α) (d : α) (ch : List Nat) (op : Op α) (tag : String) :
    (g.mkNode d ch op tag).2 = g.size := rfl

theorem dataAt_mkNode [Zero α] (g : Graph α) (d : α) (ch : List Nat) (op : Op α)
    (tag : String) (i : Nat) :
    (g.mkNode d ch op tag).1.dataAt i = if i = g.size then d else g.dataAt i := by
  unfold dataAt
  rw [getElem?_mkNode]
  by_cases h : i = g.size
  · rw [if_pos h, if_pos h]
  · rw [if_neg h, if_neg h]

theorem prevAt_mkNode [Zero α] (g : Graph α) (d : α) (ch : List Nat) (op : Op α)
    (tag : String) (i : Nat) :
    (g.mkNode d ch op tag).1.prevAt i = if i = g.size then ch.dedup else g.prevAt i := by
  unfold prevAt
  rw [getElem?_mkNode]
  by_cases h : i = g.size
  · rw [if_pos h, if_pos h]
  · rw [if_neg h, if_neg h]

theorem opAt_mkNode [Zero α] (g : Graph α) (d : α) (ch : List Nat) (op : Op α)
    (tag : String) (i : Nat) :
    (g.mkNode d ch op tag).1.opAt i = if i = g.size then op else g.opAt i := by
  unfold opAt
  rw [getElem?_mkNode]
  by_cases h : i = g.size
  · rw [if_pos h, if_pos h]
  · rw [if_neg h, if_neg h]

theorem tagAt_mkNode [Zero α] (g : Graph α) (d : α) (ch : List Nat) (op : Op α)
    (tag : String) (i : Nat) :
    (g.mkNode d ch op tag).1.tagAt i = if i = g.size then tag else g.tagAt i := by
  unfold tagAt
  rw [getElem?_mkNode]
  by_cases h : i = g.size
  · rw [if_pos h, if_pos h]
  · rw [if_neg h, if_neg h]

theorem gradAt_mkNode [Zero α] (g : Graph α) (d : α) (ch : List Nat) (op : Op α)
    (tag : String) (i : Nat) :
    (g.mkNode d ch op tag).1.gradAt i = if i = g.size then 0 else g.gradAt i := by
  unfold gradAt
  rw [getElem?_mkNode]
  by_cases h : i = g.size
  · rw [if_pos h, if_pos h]
  · rw [if_neg h, if_neg h]

/-! Correctness of the depth-first topological sort in `Value.backward`. -/

theorem reach_le {g : Graph α} (hL : g.Lowered) {a b : Nat} (h : g.Reach a b) : b ≤ a := by
  induction h with
  | refl => exact le_refl a
  | tail _ hbc ih => exact le_of_lt (lt_of_lt_of_le (lowered_lt hL hbc) ih)

/-- Invariant of the `build_topo` state `(visited, topo)`: the topo list
is duplicate-free, every recorded node is visited, every operand of a
recorded node is visited, and no recorded node is an operand of an
earlier recorded node. -/
def GoodState (g : Graph α) (st : List Nat × List Nat) : Prop :=
  st.2.Nodup ∧
  (∀ i ∈ st.2, i ∈ st.1) ∧
  (∀ i ∈ st.2, ∀ j ∈ g.prevAt i, j ∈ st.1) ∧
  st.2.Pairwise (fun a b => b ∉ g.prevAt a)

/-- When every visited-but-unrecorded node lies strictly above `v` (the
nodes still on the recursion stack), every node reachable from a
recorded `v` is itself recorded. -/
theorem reach_mem_topo {g : Graph α} (hL : g.Lowered) {v : Nat} {V T : List Nat}
    (hGT : ∀ i ∈ T, ∀ j ∈ g.prevAt i, j ∈ V)
    (hstk : ∀ w ∈ V, w ∉ T → v < w) (hv : v ∈ T) :
    ∀ w, g.Reach v w → w ∈ T ∧ w ≤ v := by
  intro w hw
  induction hw with
  | refl => exact ⟨hv, le_refl v⟩
  | tail _ hbc ih =>
    obtain ⟨hbT, hbv⟩ := ih
    have hcV := hGT _ hbT _ hbc
    have hcb := lowered_lt hL hbc
    refine ⟨?_, by omega⟩
    by_contra hcT
    have := hstk _ hcV hcT
    omega

/-- What one completed `build_topo` call on `v`, entered in state
`(V, T)` and returning `(V', T')`, guarantees. -/
structure TopoCall (g : Graph α) (v : Nat) (V T V' T' : List Nat) : Prop where
  visMono : ∀ w ∈ V, w ∈ V'
  topoExt : ∃ d, T' = T ++ d
  good : GoodState g (V', T')
  visNew : ∀ w ∈ V', w ∈ V ∨ (g.Reach v w ∧ w ∈ T')
  topoNew : ∀ w ∈ T', w ∈ T ∨ g.Reach v w
  selfMem : v ∈ T'
  complete : ∀ w, g.Reach v w → w ∈ T'

/-- Invariant holding while the children of `v` are folded over: `v` is
visited but not yet recorded, and every visited-but-unrecorded node is
`v` or a node above `v` still on the recursion stack. -/
structure FoldSt (g : Graph α) (v : Nat) (V T : List Nat) (st : List Nat × List Nat) : Prop where
  good : GoodState g st
  vVis : v ∈ st.1
  vNotTopo : v ∉ st.2
  stk : ∀ w ∈ st.1, w ∉ st.2 → v ≤ w
  visSup : ∀ w ∈ V, w ∈ st.1
  topoExt : ∃ d, st.2 = T ++ d
  visNew : ∀ w ∈ st.1, w ∈ V ∨ w = v ∨ (g.Reach v w ∧ w ∈ st.2)
  topoNew : ∀ w ∈ st.2, w ∈ T ∨ g.Reach v w

theorem buildTopo_spec {g : Graph α} (hL : g.Lowered) :
    ∀ fuel v V T, v < fuel → GoodState g (V, T) → (∀ w ∈ V, w ∉ T → v < w) →
      TopoCall g v V T (g.buildTopo fuel v (V, T)).1 (g.buildTopo fuel v (V, T)).2 := by
  intro fuel
  induction fuel with
  | zero => intro v V T hv _ _; omega
  | succ fuel ih =>
    intro v V T hv hG hstk
    by_cases hmem : v ∈ V
    · have hvT : v ∈ T := by
        by_contra h
        exact absurd (hstk v hmem h) (lt_irrefl v)
      have heq : g.buildTopo (fuel + 1) v (V, T) = (V, T) := by
        simp only [buildTopo]
        rw [if_pos hmem]
      rw [heq]
      exact
        { visMono := fun w hw => hw
          topoExt := ⟨[], by simp⟩
          good := hG
          visNew := fun w hw => Or.inl hw
          topoNew := fun w hw => Or.inl hw
          selfMem := hvT
          complete := fun w hw => (reach_mem_topo hL hG.2.2.1 hstk hvT w hw).1 }
    · have hvT : v ∉ T := fun h => hmem (hG.2.1 v h)
      have key : ∀ cs : List Nat, (∀ c ∈ cs, c ∈ g.prevAt v) →
          ∀ st : List Nat × List Nat, FoldSt g v V T st →
          FoldSt g v V T (cs.foldl (fun s c => g.buildTopo fuel c s) st) ∧
          (∀ w ∈ st.1, w ∈ (cs.foldl (fun s c => g.buildTopo fuel c s) st).1) ∧
          (∃ d, (cs.foldl (fun s c => g.buildTopo fuel c s) st).2 = st.2 ++ d) ∧
          (∀ c ∈ cs, ∀ w, g.Reach c w →
            w ∈ (cs.foldl (fun s c => g.buildTopo fuel c s) st).2) := by
        intro cs
        induction cs with
        | nil =>
          intro _ st hF
          exact ⟨hF, fun w hw => hw, ⟨[], by simp⟩, by simp⟩
        | cons c cs ihc =>
          intro hcs st hF
          have hcp : c ∈ g.prevAt v := hcs c (by simp)
          have hcv : c < v := lowered_lt hL hcp
          have hcall : TopoCall g c st.1 st.2 (g.buildTopo fuel c st).1
              (g.buildTopo fuel c st).2 := by
            apply ih c st.1 st.2 (by omega) hF.good
            intro w hw hnw
            have := hF.stk w hw hnw
            omega
          have hF' : FoldSt g v V T (g.buildTopo fuel c st) := by
            refine
              { good := hcall.good
                vVis := hcall.visMono v hF.vVis
                vNotTopo := ?_
                stk := ?_
                visSup := fun w hw => hcall.visMono w (hF.visSup w hw)
                topoExt := ?_
                visNew := ?_
                topoNew := ?_ }
            · intro hvs
              rcases hcall.topoNew v hvs with h | h
              · exact hF.vNotTopo h
              · exact absurd (reach_le hL h) (by omega)
            · intro w hw hnw
              rcases hcall.visNew w hw with h | h
              · refine hF.stk w h ?_
                intro hwst2
                obtain ⟨d, hd⟩ := hcall.topoExt
                exact hnw (hd ▸ List.mem_append_left d hwst2)
              · exact absurd h.2 hnw
            · obtain ⟨d1, h1⟩ := hF.topoExt
              obtain ⟨d2, h2⟩ := hcall.topoExt
              exact ⟨d1 ++ d2, by rw [h2, h1, List.append_assoc]⟩
            · intro w hw
              rcases hcall.visNew w hw with h | h
              · rcases hF.visNew w h with h' | h' | ⟨hr', hm'⟩
                · exact Or.inl h'
                · exact Or.inr (Or.inl h')
                · refine Or.inr (Or.inr ⟨hr', ?_⟩)
                  obtain ⟨d, hd⟩ := hcall.topoExt
                  rw [hd]
                  exact List.mem_append_left _ hm'
              · exact Or.inr (Or.inr
                  ⟨Relation.ReflTransGen.trans (Relation.ReflTransGen.single hcp) h.1, h.2⟩)
            · intro w hw
              rcases hcall.topoNew w hw with h | h
              · exact hF.topoNew w h
              · exact Or.inr
                  (Relation.ReflTransGen.trans (Relation.ReflTransGen.single hcp) h)
          obtain ⟨hFfin, hmono, hext, hcomp⟩ :=
            ihc (fun c' hc' => hcs c' (List.mem_cons_of_mem _ hc')) (g.buildTopo fuel c st) hF'
          rw [List.foldl_cons]
          refine ⟨hFfin, ?_, ?_, ?_⟩
          · exact fun w hw => hmono w (hcall.visMono w hw)
          · obtain ⟨d1, h1⟩ := hcall.topoExt
            obtain ⟨d2, h2⟩ := hext
            exact ⟨d1 ++ d2, by rw [h2, h1, List.append_assoc]⟩
          · intro c' hc' w hw
            rcases List.mem_cons.mp hc' with h | h
            · subst h
              have hws := hcall.complete w hw
              obtain ⟨d, hd⟩ := hext
              rw [hd]
              exact List.mem_append_left _ hws
            · exact hcomp c' h w hw
      have hF0 : FoldSt g v V T (v :: V, T) :=
        { good := ⟨hG.1, fun i hi => List.mem_cons_of_mem _ (hG.2.1 i hi),
            fun i hi j hj => List.mem_cons_of_mem _ (hG.2.2.1 i hi j hj), hG.2.2.2⟩
          vVis := List.mem_cons_self v V
          vNotTopo := hvT
          stk := by
            intro w hw hnw
            rcases List.mem_cons.mp hw with h | h
            · omega
            · exact le_of_lt (hstk w h hnw)
          visSup := fun w hw => List.mem_cons_of_mem _ hw
          topoExt := ⟨[], by simp⟩
          visNew := by
            intro w hw
            rcases List.mem_cons.mp hw with h | h
            · exact Or.inr (Or.inl h)
            · exact Or.inl h
          topoNew := fun w hw => Or.inl hw }
      obtain ⟨hF1, hmono1, hext1, hcomp1⟩ := key (g.prevAt v) (fun c hc => hc) (v :: V, T) hF0
      have heq : g.buildTopo (fuel + 1) v (V, T) =
          (((g.prevAt v).foldl (fun s c => g.buildTopo fuel c s) (v :: V, T)).1,
           ((g.prevAt v).foldl (fun s c => g.buildTopo fuel c s) (v :: V, T)).2 ++ [v]) := by
        simp only [buildTopo]
        rw [if_neg hmem]
      rw [heq]
      refine
        { visMono := fun w hw => hmono1 w (List.mem_cons_of_mem _ hw)
          topoExt := ?_
          good := ?_
          visNew := ?_
          topoNew := ?_
          selfMem := by simp
          complete := ?_ }
      · obtain ⟨d, hd⟩ := hF1.topoExt
        exact ⟨d ++ [v], by rw [hd, List.append_assoc]⟩
      · refine ⟨?_, ?_, ?_, ?_⟩
        · rw [List.nodup_append]
          exact ⟨hF1.good.1, by simp, by simp [List.disjoint_singleton, hF1.vNotTopo]⟩
        · intro i hi
          rcases List.mem_append.mp hi with h | h
          · exact hF1.good.2.1 i h
          · simp at h
            subst h
            exact hF1.vVis
        · intro i hi j hj
          rcases List.mem_append.mp hi with h | h
          · exact hF1.good.2.2.1 i h j hj
          · simp at h
            subst h
            exact hF1.good.2.1 j (hcomp1 j hj j Relation.ReflTransGen.refl)
        · rw [List.pairwise_append]
          refine ⟨hF1.good.2.2.2, by simp, ?_⟩
          intro a ha b hb hba
          simp at hb
          rw [hb] at hba
          have hlt := lowered_lt hL hba
          rcases hF1.topoNew a ha with h | h
          · exact hmem (hG.2.2.1 a h v hba)
          · exact absurd (reach_le hL h) (by omega)
      · intro w hw
        rcases hF1.visNew w hw with h | h | ⟨hr, hm⟩
        · exact Or.inl h
        · subst h
          exact Or.inr ⟨Relation.ReflTransGen.refl, by simp⟩
        · exact Or.inr ⟨hr, List.mem_append_left _ hm⟩
      · intro w hw
        rcases List.mem_append.mp hw with h | h
        · exact hF1.topoNew w h
        · simp at h
          subst h
          exact Or.inr Relation.ReflTransGen.refl
      · intro w hw
        rcases Relation.ReflTransGen.cases_head hw with h | ⟨c, hc, hcw⟩
        · subst h
          simp
        · exact List.mem_append_left _ (hcomp1 c hc w hcw)

theorem goodstate_nil (g : Graph α) : GoodState g ([], []) :=
  ⟨List.nodup_nil, by simp, by simp, List.Pairwise.nil⟩

theorem backwardTopo_call {g : Graph α} (hL : g.Lowered) {root : Nat} (hr : root < g.size) :
    TopoCall g root [] [] (g.buildTopo g.size root ([], [])).1 (g.backwardTopo root) :=
  buildTopo_spec hL g.size root [] [] hr (goodstate_nil g) (by simp)

theorem nodup_backwardTopo {g : Graph α} (hL : g.Lowered) {root : Nat} (hr : root < g.size) :
    (g.backwardTopo root).Nodup :=
  (backwardTopo_call hL hr).good.1

theorem mem_backwardTopo {g : Graph α} (hL : g.Lowered) {root : Nat} (hr : root < g.size)
    (i : Nat) : i ∈ g.backwardTopo root ↔ g.Reach root i := by
  constructor
  · intro h
    rcases (backwardTopo_call hL hr).topoNew i h with h' | h'
    · simp at h'
    · exact h'
  · exact (backwardTopo_call hL hr).complete i

theorem prev_before_backwardTopo {g : Graph α} (hL : g.Lowered) {root : Nat}
    (hr : root < g.size) :
    ∀ k, (hk : k < (g.backwardTopo root).length) →
      ∀ j ∈ g.prevAt ((g.backwardTopo root).get ⟨k, hk⟩),
        j ∈ (g.backwardTopo root).take k := by
  intro k hk j hj
  have TC := backwardTopo_call hL hr
  have hiT : (g.backwardTopo root).get ⟨k, hk⟩ ∈ g.backwardTopo root :=
    List.get_mem _ k hk
  have hjV := TC.good.2.2.1 _ hiT j hj
  have hjT : j ∈ g.backwardTopo root := by
    rcases TC.visNew j hjV with h | h
    · simp at h
    · exact h.2
  have hji : j < (g.backwardTopo root).get ⟨k, hk⟩ := lowered_lt hL hj
  obtain ⟨⟨m, hm⟩, hgm⟩ := List.mem_iff_get.mp hjT
  rcases Nat.lt_trichotomy m k with hmk | hmk | hmk
  · have hlen : m < ((g.backwardTopo root).take k).length := by
      rw [List.length_take]
      omega
    have : ((g.backwardTopo root).take k)[m] = (g.backwardTopo root)[m] :=
      List.getElem_take _
    rw [← hgm, List.get_eq_getElem, ← this]
    exact List.getElem_mem hlen
  · exfalso
    rw [← hgm] at hji
    simp only [hmk] at hji
    exact lt_irrefl _ hji
  · exfalso
    have hp := List.pairwise_iff_get.mp TC.good.2.2.2 ⟨k, hk⟩ ⟨m, hm⟩ hmk
    rw [hgm] at hp
    exact hp hj

theorem count_backwardTopo {g : Graph α} (hL : g.Lowered) {root : Nat} (hr : root < g.size)
    {i : Nat} (hi : g.Reach root i) : (g.backwardTopo root).reverse.count i = 1 := by
  rw [List.count_reverse]
  exact List.count_eq_one_of_mem (nodup_backwardTopo hL hr)
    ((mem_backwardTopo hL hr i).mpr hi)

/-! Frame lemmas: the backward pass only writes gradient fields, and only
at nodes captured by the closures it runs. -/

theorem size_applyBackward [CommRing α] (p : α → α → α) (g : Graph α) (n : Nat) :
    (g.applyBackward p n).size = g.size := by
  unfold applyBackward
  split <;> simp [size_addGrad]

theorem dataAt_applyBackward [CommRing α] (p : α → α → α) (g : Graph α) (n i : Nat) :
    (g.applyBackward p n).dataAt i = g.dataAt i := by
  unfold applyBackward
  split <;> simp [dataAt_addGrad]

theorem prevAt_applyBackward [CommRing α] (p : α → α → α) (g : Graph α) (n i : Nat) :
    (g.applyBackward p n).prevAt i = g.prevAt i := by
  unfold applyBackward
  split <;> simp [prevAt_addGrad]

theorem opAt_applyBackward [CommRing α] (p : α → α → α) (g : Graph α) (n i : Nat) :
    (g.applyBackward p n).opAt i = g.opAt i := by
  unfold applyBackward
  split <;> simp [opAt_addGrad]

theorem tagAt_applyBackward [CommRing α] (p : α → α → α) (g : Graph α) (n i : Nat) :
    (g.applyBackward p n).tagAt i = g.tagAt i := by
  unfold applyBackward
  split <;> simp [tagAt_addGrad]

theorem gradAt_applyBackward_of_not_captured [CommRing α] (p : α → α → α) (g : Graph α)
    {n i : Nat} (h : i ∉ (g.opAt n).children) :
    (g.applyBackward p n).gradAt i = g.gradAt i := by
  unfold applyBackward
  split
  · rfl
  · next a heq =>
    rw [heq, Op.children] at h
    simp at h
    rw [gradAt_addGrad_ne _ _ (Ne.symm h)]
  · next a b heq =>
    rw [heq, Op.children] at h
    simp at h
    dsimp only
    rw [gradAt_addGrad_ne _ _ (Ne.symm h.2), gradAt_addGrad_ne _ _ (Ne.symm h.1)]
  · next a b heq =>
    rw [heq, Op.children] at h
    simp at h
    dsimp only
    rw [gradAt_addGrad_ne _ _ (Ne.symm h.2), gradAt_addGrad_ne _ _ (Ne.symm h.1)]
  · next a k heq =>
    rw [heq, Op.children] at h
    simp at h
    rw [gradAt_addGrad_ne _ _ (Ne.symm h)]
  · next a heq =>
    rw [heq, Op.children] at h
    simp at h
    rw [gradAt_addGrad_ne _ _ (Ne.symm h)]
  · next a t heq =>
    rw [heq, Op.children] at h
    simp at h
    rw [gradAt_addGrad_ne _ _ (Ne.symm h)]

theorem size_foldBackward [CommRing α] (p : α → α → α) :
    ∀ (L : List Nat) (g : Graph α),
      (L.foldl (fun h n => h.applyBackward p n) g).size = g.size := by
  intro L
  induction L with
  | nil => intro g; rfl
  | cons n L ihl =>
    intro g
    rw [List.foldl_cons, ihl, size_applyBackward]

theorem dataAt_foldBackward [CommRing α] (p : α → α → α) :
    ∀ (L : List Nat) (g : Graph α) (i : Nat),
      (L.foldl (fun h n => h.applyBackward p n) g).dataAt i = g.dataAt i := by
  intro L
  induction L with
  | nil => intro g i; rfl
  | cons n L ihl =>
    intro g i
    rw [List.foldl_cons, ihl, dataAt_applyBackward]

theorem prevAt_foldBackward [CommRing α] (p : α → α → α) :
    ∀ (L : List Nat) (g : Graph α) (i : Nat),
      (L.foldl (fun h n => h.applyBackward p n) g).prevAt i = g.prevAt i := by
  intro L
  induction L with
  | nil => intro g i; rfl
  | cons n L ihl =>
    intro g i
    rw [List.foldl_cons, ihl, prevAt_applyBackward]

theorem opAt_foldBackward [CommRing α] (p : α → α → α) :
    ∀ (L : List Nat) (g : Graph α) (i : Nat),
      (L.foldl (fun h n => h.applyBackward p n) g).opAt i = g.opAt i := by
  intro L
  induction L with
  | nil => intro g i; rfl
  | cons n L ihl =>
    intro g i
    rw [List.foldl_cons, ihl, opAt_applyBackward]

theorem tagAt_foldBackward [CommRing α] (p : α → α → α) :
    ∀ (L : List Nat) (g : Graph α) (i : Nat),
      (L.foldl (fun h n => h.applyBackward p n) g).tagAt i = g.tagAt i := by
  intro L
  induction L with
  | nil => intro g i; rfl
  | cons n L ihl =>
    intro g i
    rw [List.foldl_cons, ihl, tagAt_applyBackward]

theorem gradAt_foldBackward_avoid [CommRing α] (p : α → α → α) {g0 : Graph α} {i : Nat} :
    ∀ (L : List Nat) (g : Graph α),
      (∀ j, g.opAt j = g0.opAt j) → (∀ n ∈ L, i ∉ (g0.opAt n).children) →
      (L.foldl (fun h n => h.applyBackward p n) g).gradAt i = g.gradAt i := by
  intro L
  induction L with
  | nil => intro g _ _; rfl
  | cons n L ihl =>
    intro g hop havoid
    have hni : i ∉ (g.opAt n).children := by
      rw [hop]
      exact havoid n (by simp)
    rw [List.foldl_cons,
      ihl (g.applyBackward p n) (fun j => by rw [opAt_applyBackward, hop])
        (fun m hm => havoid m (List.mem_cons_of_mem _ hm)),
      gradAt_applyBackward_of_not_captured p g hni]

theorem size_backward [CommRing α] (p : α → α → α) (g : Graph α) (root : Nat) :
    (g.backward p root).size = g.size := by
  unfold backward
  rw [size_foldBackward, size_setGrad]

theorem dataAt_backward [CommRing α] (p : α → α → α) (g : Graph α) (root i : Nat) :
    (g.backward p root).dataAt i = g.dataAt i := by
  unfold backward
  rw [dataAt_foldBackward, dataAt_setGrad]

theorem prevAt_backward [CommRing α] (p : α → α → α) (g : Graph α) (root i : Nat) :
    (g.backward p root).prevAt i = g.prevAt i := by
  unfold backward
  rw [prevAt_foldBackward, prevAt_setGrad]

theorem opAt_backward [CommRing α] (p : α → α → α) (g : Graph α) (root i : Nat) :
    (g.backward p root).opAt i = g.opAt i := by
  unfold backward
  rw [opAt_foldBackward, opAt_setGrad]

theorem tagAt_backward [CommRing α] (p : α → α → α) (g : Graph α) (root i : Nat) :
    (g.backward p root).tagAt i = g.tagAt i := by
  unfold backward
  rw [tagAt_foldBackward, tagAt_setGrad]

theorem lowered_backward [CommRing α] (p : α → α → α) (g : Graph α) (root : Nat)
    (hL : g.Lowered) : (g.backward p root).Lowered := by
  intro i hi j hj
  rw [size_backward] at hi
  rw [prevAt_backward] at hj
  exact hL i hi j hj

theorem wf_backward [CommRing α] (p : α → α → α) (g : Graph α) (root : Nat)
    (hWF : g.WF) : (g.backward p root).WF := by
  intro i hi
  rw [size_backward] at hi
  rw [prevAt_backward, opAt_backward]
  exact hWF i hi

/-- Gradients of nodes not reachable from the root are untouched by the
backward pass. -/
theorem gradAt_backward_of_not_reach [CommRing α] (p : α → α → α) {g : Graph α} {root : Nat}
    (hL : g.Lowered) (hWF : g.WF) (hr : root < g.size) {i : Nat} (hni : ¬ g.Reach root i) :
    (g.backward p root).gradAt i = g.gradAt i := by
  unfold backward
  rw [gradAt_foldBackward_avoid p _ (g.setGrad root 1) (fun j => opAt_setGrad g root j 1) ?_,
    gradAt_setGrad_ne]
  · intro h
    exact hni (h ▸ Relation.ReflTransGen.refl)
  · intro n hn hic
    rw [List.mem_reverse, mem_backwardTopo hL hr] at hn
    have hnsize : n < g.size := lt_of_le_of_lt (reach_le hL hn) hr
    have : i ∈ g.prevAt n := by
      rw [hWF n hnsize, List.mem_dedup]
      exact hic
    exact hni (Relation.ReflTransGen.trans hn (Relation.ReflTransGen.single this))

/-- The root gradient after a backward pass is exactly `1`: it is seeded
by an overwrite and no closure in the reverse walk writes to the root. -/
theorem gradAt_backward_root [CommRing α] (p : α → α → α) {g : Graph α} {root : Nat}
    (hL : g.Lowered) (hWF : g.WF) (hr : root < g.size) :
    (g.backward p root).gradAt root = 1 := by
  unfold backward
  rw [gradAt_foldBackward_avoid p _ (g.setGrad root 1) (fun j => opAt_setGrad g root j 1) ?_,
    gradAt_setGrad_self _ _ hr]
  intro n hn hic
  rw [List.mem_reverse, mem_backwardTopo hL hr] at hn
  have hnsize : n < g.size := lt_of_le_of_lt (reach_le hL hn) hr
  have hprev : root ∈ g.prevAt n := by
    rw [hWF n hnsize, List.mem_dedup]
    exact hic
  have h1 : root < n := lowered_lt hL hprev
  have h2 : n ≤ root := reach_le hL hn
  omega

/-! Lemmas for reading fields of an arena extended by a block of nodes. -/

theorem getElem?_chunk (g : Graph α) (ns : List (Node α)) (k : Nat) :
    (g.nodes ++ ns)[g.size + k]? = ns[k]? := by
  rw [List.getElem?_append_right (by simp [size])]
  congr 1
  simp [size]

theorem dataAt_chunk [Zero α] (g : Graph α) (ns : List (Node α)) (k : Nat) :
    (⟨g.nodes ++ ns⟩ : Graph α).dataAt (g.size + k) = (⟨ns⟩ : Graph α).dataAt k := by
  unfold dataAt
  dsimp only
  rw [getElem?_chunk]

theorem prevAt_chunk (g : Graph α) (ns : List (Node α)) (k : Nat) :
    (⟨g.nodes ++ ns⟩ : Graph α).prevAt (g.size + k) = (⟨ns⟩ : Graph α).prevAt k := by
  unfold prevAt
  dsimp only
  rw [getElem?_chunk]

theorem opAt_chunk (g : Graph α) (ns : List (Node α)) (k : Nat) :
    (⟨g.nodes ++ ns⟩ : Graph α).opAt (g.size + k) = (⟨ns⟩ : Graph α).opAt k := by
  unfold opAt
  dsimp only
  rw [getElem?_chunk]

theorem gradAt_chunk [Zero α] (g : Graph α) (ns : List (Node α)) (k : Nat) :
    (⟨g.nodes ++ ns⟩ : Graph α).gradAt (g.size + k) = (⟨ns⟩ : Graph α).gradAt k := by
  unfold gradAt
  dsimp only
  rw [getElem?_chunk]

theorem tagAt_chunk (g : Graph α) (ns : List (Node α)) (k : Nat) :
    (⟨g.nodes ++ ns⟩ : Graph α).tagAt (g.size + k) = (⟨ns⟩ : Graph α).tagAt k := by
  unfold tagAt
  dsimp only
  rw [getElem?_chunk]

theorem dataAt_chunk0 [Zero α] (g : Graph α) (n : Node α) (ns : List (Node α)) :
    (⟨g.nodes ++ n :: ns⟩ : Graph α).dataAt g.size = n.data := by
  refine (dataAt_chunk g (n :: ns) 0).trans ?_
  unfold dataAt
  simp

theorem dataAt_append_lt [Zero α] (g : Graph α) (ns : List (Node α)) {i : Nat}
    (h : i < g.size) : (⟨g.nodes ++ ns⟩ : Graph α).dataAt i = g.dataAt i := by
  unfold dataAt
  dsimp only
  rw [List.getElem?_append_left h]

theorem prevAt_append_lt (g : Graph α) (ns : List (Node α)) {i : Nat}
    (h : i < g.size) : (⟨g.nodes ++ ns⟩ : Graph α).prevAt i = g.prevAt i := by
  unfold prevAt
  dsimp only
  rw [List.getElem?_append_left h]

theorem opAt_append_lt (g : Graph α) (ns : List (Node α)) {i : Nat}
    (h : i < g.size) : (⟨g.nodes ++ ns⟩ : Graph α).opAt i = g.opAt i := by
  unfold opAt
  dsimp only
  rw [List.getElem?_append_left h]

theorem gradAt_append_lt [Zero α] (g : Graph α) (ns : List (Node α)) {i : Nat}
    (h : i < g.size) : (⟨g.nodes ++ ns⟩ : Graph α).gradAt i = g.gradAt i := by
  unfold gradAt
  dsimp only
  rw [List.getElem?_append_left h]

theorem size_chunk (g : Graph α) (ns : List (Node α)) :
    (⟨g.nodes ++ ns⟩ : Graph α).size = g.size + ns.length := by
  simp [size]

end Graph

/-! Real-scalar operations: `**`, `exp` and `tanh` (`value.py` lines
66 to 94), with Python floats idealised as real numbers. -/

/-- Predicate for a real exponent being an integer: Python `**` on
floats returns a complex number exactly for a negative base and a
non-integer exponent. -/
def IsIntExp (k : ℝ) : Prop := ∃ m : ℤ, (m : ℝ) = k

open Classical in
/-- Model of the Python expression `n**exponent` in `Value.__pow__`,
combined with the `float(data)` coercion of `Value.__init__`: for a
negative base and a non-integer exponent `**` returns a complex number
and `float(...)` raises `TypeError`; for a zero base and a negative
exponent `**` raises `ZeroDivisionError`; every other combination
yields the real power `n ^ k` (`Real.rpow`, which agrees with Python
on the remaining combinations, e.g. negative bases with integer
exponents). -/
noncomputable def floatPow (n k : ℝ) : Except PyErr ℝ :=
  if n < 0 ∧ ¬ IsIntExp k then .error .typeError
  else if n = 0 ∧ k < 0 then .error .zeroDivisionError
  else .ok (n ^ k)

namespace Graph

/-- Model of `Value.__pow__` with a fixed real exponent `k`.  The Python
tag is the f-string `pow_{exponent}`; a real exponent has no canonical
string form, so the model stores the constant prefix (the tag is
diagnostic only and inspected by no algorithm). -/
noncomputable def powNode (g : Graph ℝ) (a : Nat) (k : ℝ) : Except PyErr (Graph ℝ × Nat) :=
  match floatPow (g.dataAt a) k with
  | .error e => .error e
  | .ok v => .ok (g.mkNode v [a] (.pow a k) "pow_")

/-- Model of `Value.exp` (`np.exp`, idealised as `Real.exp`; `np.exp`
never raises, it overflows to `inf`, outside the real idealisation). -/
noncomputable def expNode (g : Graph ℝ) (a : Nat) : Graph ℝ × Nat :=
  g.mkNode (Real.exp (g.dataAt a)) [a] (.exp a) "exp"

/-- Model of `Value.tanh`, statement by statement.  `e = (2*self).exp()`
dispatches `2*self` to `__rmul__`, which evaluates `self * 2`, coercing
`2` to a leaf; `t = (e - 1) / (e + 1)` builds `e + (-1)` with the plain
number `-1` coerced to a leaf, then `e + 1` with a leaf for `1`, and
division is `(e - 1) * (e + 1)**-1`, whose `**-1` step goes through
`powNode`, so `tanhNode` propagates its `Except` (the error branch is
unreachable: the base `e + 1` is positive); finally
`out = Value(t.data, (self,), 'tanh')` records only the original input
as operand and captures `t.data` in its closure. -/
noncomputable def tanhNode (g : Graph ℝ) (a : Nat) : Except PyErr (Graph ℝ × Nat) :=
  let s0 := g.leaf 2
  let s1 := s0.1.mulNode a s0.2
  let s2 := s1.1.expNode s1.2
  let s3 := s2.1.leaf (-1)
  let s4 := s3.1.addNode s2.2 s3.2
  let s5 := s4.1.leaf 1
  let s6 := s5.1.addNode s2.2 s5.2
  match s6.1.powNode s6.2 (-1) with
  | .error e => .error e
  | .ok s7 =>
      let s8 := s7.1.mulNode s4.2 s7.2
      .ok (s8.1.mkNode (s8.1.dataAt s8.2) [a] (.tanh a (s8.1.dataAt s8.2)) "tanh")

/-- The ten nodes `Value.tanh` appends to an arena of size `N` when
applied to node `a` with value `x`: the coerced leaf `2`, the product
`2x`, its exponential, the leaves `-1` and `1`, the sums `e - 1` and
`e + 1`, the reciprocal `(e+1)**-1`, the quotient, and the tanh output
node itself. -/
noncomputable def tanhChunk (x : ℝ) (a N : Nat) : List (Node ℝ) :=
  [⟨2, [], .leaf, "", 0⟩,
   ⟨x * 2, [a, N], .mul a N, "*", 0⟩,
   ⟨Real.exp (x * 2), [N + 1], .exp (N + 1), "exp", 0⟩,
   ⟨-1, [], .leaf, "", 0⟩,
   ⟨Real.exp (x * 2) + -1, [N + 2, N + 3], .add (N + 2) (N + 3), "+", 0⟩,
   ⟨1, [], .leaf, "", 0⟩,
   ⟨Real.exp (x * 2) + 1, [N + 2, N + 5], .add (N + 2) (N + 5), "+", 0⟩,
   ⟨(Real.exp (x * 2) + 1) ^ (-1 : ℝ), [N + 6], .pow (N + 6) (-1), "pow_", 0⟩,
   ⟨(Real.exp (x * 2) + -1) * (Real.exp (x * 2) + 1) ^ (-1 : ℝ), [N + 4, N + 7],
     .mul (N + 4) (N + 7), "*", 0⟩,
   ⟨(Real.exp (x * 2) + -1) * (Real.exp (x * 2) + 1) ^ (-1 : ℝ), [a],
     .tanh a ((Real.exp (x * 2) + -1) * (Real.exp (x * 2) + 1) ^ (-1 : ℝ)), "tanh", 0⟩]

theorem floatPow_of_pos (n k : ℝ) (hn : 0 < n) : floatPow n k = .ok (n ^ k) := by
  unfold floatPow
  rw [if_neg (by rintro ⟨h1, h2⟩; linarith), if_neg (by rintro ⟨h1, h2⟩; linarith)]

theorem tanhNode_eq (g : Graph ℝ) (a : Nat) (ha : a < g.size) :
    g.tanhNode a = .ok (⟨g.nodes ++ tanhChunk (g.dataAt a) a g.size⟩, g.size + 9) := by
  have hane : a ≠ g.size := Nat.ne_of_lt ha
  have e1 : (⟨g.nodes ++ [⟨2, [], .leaf, "", 0⟩]⟩ : Graph ℝ).mulNode a g.size =
      (⟨g.nodes ++ [⟨2, [], .leaf, "", 0⟩,
        ⟨g.dataAt a * 2, [a, g.size], .mul a g.size, "*", 0⟩]⟩, g.size + 1) := by
    unfold mulNode mkNode
    rw [dataAt_append_lt g _ ha, dataAt_chunk0, List.Nodup.dedup (by simp [hane]),
      size_chunk]
    simp
  have e2 : (⟨g.nodes ++ [⟨2, [], .leaf, "", 0⟩,
        ⟨g.dataAt a * 2, [a, g.size], .mul a g.size, "*", 0⟩]⟩ : Graph ℝ).expNode (g.size + 1) =
      (⟨g.nodes ++ [⟨2, [], .leaf, "", 0⟩,
        ⟨g.dataAt a * 2, [a, g.size], .mul a g.size, "*", 0⟩,
        ⟨Real.exp (g.dataAt a * 2), [g.size + 1], .exp (g.size + 1), "exp", 0⟩]⟩, g.size + 2) := by
    unfold expNode mkNode
    rw [dataAt_chunk g [⟨2, [], .leaf, "", 0⟩,
        ⟨g.dataAt a * 2, [a, g.size], .mul a g.size, "*", 0⟩] 1, List.Nodup.dedup (by simp), size_chunk]
    simp [dataAt]
  have e4 : (⟨g.nodes ++ [⟨2, [], .leaf, "", 0⟩,
        ⟨g.dataAt a * 2, [a, g.size], .mul a g.size, "*", 0⟩,
        ⟨Real.exp (g.dataAt a * 2), [g.size + 1], .exp (g.size + 1), "exp", 0⟩,
        ⟨-1, [], .leaf, "", 0⟩]⟩ : Graph ℝ).addNode (g.size + 2) (g.size + 3) =
      (⟨g.nodes ++ [⟨2, [], .leaf, "", 0⟩,
        ⟨g.dataAt a * 2, [a, g.size], .mul a g.size, "*", 0⟩,
        ⟨Real.exp (g.dataAt a * 2), [g.size + 1], .exp (g.size + 1), "exp", 0⟩,
        ⟨-1, [], .leaf, "", 0⟩,
        ⟨Real.exp (g.dataAt a * 2) + -1, [g.size + 2, g.size + 3], .add (g.size + 2) (g.size + 3), "+", 0⟩]⟩, g.size + 4) := by
    unfold addNode mkNode
    rw [dataAt_chunk g [⟨2, [], .leaf, "", 0⟩,
        ⟨g.dataAt a * 2, [a, g.size], .mul a g.size, "*", 0⟩,
        ⟨Real.exp (g.dataAt a * 2), [g.size + 1], .exp (g.size + 1), "exp", 0⟩,
        ⟨-1, [], .leaf, "", 0⟩] 2, dataAt_chunk g [⟨2, [], .leaf, "", 0⟩,
        ⟨g.dataAt a * 2, [a, g.size], .mul a g.size, "*", 0⟩,
        ⟨Real.exp (g.dataAt a * 2), [g.size + 1], .exp (g.size + 1), "exp", 0⟩,
        ⟨-1, [], .leaf, "", 0⟩] 3,
      List.Nodup.dedup (by simp), size_chunk]
    simp [dataAt]
  have e6 : (⟨g.nodes ++ [⟨2, [], .leaf, "", 0⟩,
        ⟨g.dataAt a * 2, [a, g.size], .mul a g.size, "*", 0⟩,
        ⟨Real.exp (g.dataAt a * 2), [g.size + 1], .exp (g.size + 1), "exp", 0⟩,
        ⟨-1, [], .leaf, "", 0⟩,
        ⟨Real.exp (g.dataAt a * 2) + -1, [g.size + 2, g.size + 3], .add (g.size + 2) (g.size + 3), "+", 0⟩,
        ⟨1, [], .leaf, "", 0⟩]⟩ : Graph ℝ).addNode (g.size + 2) (g.size + 5) =
      (⟨g.nodes ++ [⟨2, [], .leaf, "", 0⟩,
        ⟨g.dataAt a * 2, [a, g.size], .mul a g.size, "*", 0⟩,
        ⟨Real.exp (g.dataAt a * 2), [g.size + 1], .exp (g.size + 1), "exp", 0⟩,
        ⟨-1, [], .leaf, "", 0⟩,
        ⟨Real.exp (g.dataAt a * 2) + -1, [g.size + 2, g.size + 3], .add (g.size + 2) (g.size + 3), "+", 0⟩,
        ⟨1, [], .leaf, "", 0⟩,
        ⟨Real.exp (g.dataAt a * 2) + 1, [g.size + 2, g.size + 5], .add (g.size + 2) (g.size + 5), "+", 0⟩]⟩, g.size + 6) := by
    unfold addNode mkNode
    rw [dataAt_chunk g [⟨2, [], .leaf, "", 0⟩,
        ⟨g.dataAt a * 2, [a, g.size], .mul a g.size, "*", 0⟩,
        ⟨Real.exp (g.dataAt a * 2), [g.size + 1], .exp (g.size + 1), "exp", 0⟩,
        ⟨-1, [], .leaf, "", 0⟩,
        ⟨Real.exp (g.dataAt a * 2) + -1, [g.size + 2, g.size + 3], .add (g.size + 2) (g.size + 3), "+", 0⟩,
        ⟨1, [], .leaf, "", 0⟩] 2, dataAt_chunk g [⟨2, [], .leaf, "", 0⟩,
        ⟨g.dataAt a * 2, [a, g.size], .mul a g.size, "*", 0⟩,
        ⟨Real.exp (g.dataAt a * 2), [g.size + 1], .exp (g.size + 1), "exp", 0⟩,
        ⟨-1, [], .leaf, "", 0⟩,
        ⟨Real.exp (g.dataAt a * 2) + -1, [g.size + 2, g.size + 3], .add (g.size + 2) (g.size + 3), "+", 0⟩,
        ⟨1, [], .leaf, "", 0⟩] 5,
      List.Nodup.dedup (by simp), size_chunk]
    simp [dataAt]
  have e7 : (⟨g.nodes ++ [⟨2, [], .leaf, "", 0⟩,
        ⟨g.dataAt a * 2, [a, g.size], .mul a g.size, "*", 0⟩,
        ⟨Real.exp (g.dataAt a * 2), [g.size + 1], .exp (g.size + 1), "exp", 0⟩,
        ⟨-1, [], .leaf, "", 0⟩,
        ⟨Real.exp (g.dataAt a * 2) + -1, [g.size + 2, g.size + 3], .add (g.size + 2) (g.size + 3), "+", 0⟩,
        ⟨1, [], .leaf, "", 0⟩,
        ⟨Real.exp (g.dataAt a * 2) + 1, [g.size + 2, g.size + 5], .add (g.size + 2) (g.size + 5), "+", 0⟩]⟩ : Graph ℝ).powNode (g.size + 6) (-1) =
      .ok (⟨g.nodes ++ [⟨2, [], .leaf, "", 0⟩,
        ⟨g.dataAt a * 2, [a, g.size], .mul a g.size, "*", 0⟩,
        ⟨Real.exp (g.dataAt a * 2), [g.size + 1], .exp (g.size + 1), "exp", 0⟩,
        ⟨-1, [], .leaf, "", 0⟩,
        ⟨Real.exp (g.dataAt a * 2) + -1, [g.size + 2, g.size + 3], .add (g.size + 2) (g.size + 3), "+", 0⟩,
        ⟨1, [], .leaf, "", 0⟩,
        ⟨Real.exp (g.dataAt a * 2) + 1, [g.size + 2, g.size + 5], .add (g.size + 2) (g.size + 5), "+", 0⟩,
        ⟨(Real.exp (g.dataAt a * 2) + 1) ^ (-1 : ℝ), [g.size + 6], .pow (g.size + 6) (-1), "pow_", 0⟩]⟩, g.size + 7) := by
    unfold powNode
    have hd : (⟨g.nodes ++ [⟨2, [], .leaf, "", 0⟩,
        ⟨g.dataAt a * 2, [a, g.size], .mul a g.size, "*", 0⟩,
        ⟨Real.exp (g.dataAt a * 2), [g.size + 1], .exp (g.size + 1), "exp", 0⟩,
        ⟨-1, [], .leaf, "", 0⟩,
        ⟨Real.exp (g.dataAt a * 2) + -1, [g.size + 2, g.size + 3], .add (g.size + 2) (g.size + 3), "+", 0⟩,
        ⟨1, [], .leaf, "", 0⟩,
        ⟨Real.exp (g.dataAt a * 2) + 1, [g.size + 2, g.size + 5], .add (g.size + 2) (g.size + 5), "+", 0⟩]⟩ : Graph ℝ).dataAt (g.size + 6) = Real.exp (g.dataAt a * 2) + 1 := by
      rw [dataAt_chunk g [⟨2, [], .leaf, "", 0⟩,
        ⟨g.dataAt a * 2, [a, g.size], .mul a g.size, "*", 0⟩,
        ⟨Real.exp (g.dataAt a * 2), [g.size + 1], .exp (g.size + 1), "exp", 0⟩,
        ⟨-1, [], .leaf, "", 0⟩,
        ⟨Real.exp (g.dataAt a * 2) + -1, [g.size + 2, g.size + 3], .add (g.size + 2) (g.size + 3), "+", 0⟩,
        ⟨1, [], .leaf, "", 0⟩,
        ⟨Real.exp (g.dataAt a * 2) + 1, [g.size + 2, g.size + 5], .add (g.size + 2) (g.size + 5), "+", 0⟩] 6]
      simp [dataAt]
    rw [hd, floatPow_of_pos _ _ (by positivity)]
    unfold mkNode
    rw [List.Nodup.dedup (by simp), size_chunk]
    simp
  have e8 : (⟨g.nodes ++ [⟨2, [], .leaf, "", 0⟩,
        ⟨g.dataAt a * 2, [a, g.size], .mul a g.size, "*", 0⟩,
        ⟨Real.exp (g.dataAt a * 2), [g.size + 1], .exp (g.size + 1), "exp", 0⟩,
        ⟨-1, [], .leaf, "", 0⟩,
        ⟨Real.exp (g.dataAt a * 2) + -1, [g.size + 2, g.size + 3], .add (g.size + 2) (g.size + 3), "+", 0⟩,
        ⟨1, [], .leaf, "", 0⟩,
        ⟨Real.exp (g.dataAt a * 2) + 1, [g.size + 2, g.size + 5], .add (g.size + 2) (g.size + 5), "+", 0⟩,
        ⟨(Real.exp (g.dataAt a * 2) + 1) ^ (-1 : ℝ), [g.size + 6], .pow (g.size + 6) (-1), "pow_", 0⟩]⟩ : Graph ℝ).mulNode (g.size + 4) (g.size + 7) =
      (⟨g.nodes ++ [⟨2, [], .leaf, "", 0⟩,
        ⟨g.dataAt a * 2, [a, g.size], .mul a g.size, "*", 0⟩,
        ⟨Real.exp (g.dataAt a * 2), [g.size + 1], .exp (g.size + 1), "exp", 0⟩,
        ⟨-1, [], .leaf, "", 0⟩,
        ⟨Real.exp (g.dataAt a * 2) + -1, [g.size + 2, g.size + 3], .add (g.size + 2) (g.size + 3), "+", 0⟩,
        ⟨1, [], .leaf, "", 0⟩,
        ⟨Real.exp (g.dataAt a * 2) + 1, [g.size + 2, g.size + 5], .add (g.size + 2) (g.size + 5), "+", 0⟩,
        ⟨(Real.exp (g.dataAt a * 2) + 1) ^ (-1 : ℝ), [g.size + 6], .pow (g.size + 6) (-1), "pow_", 0⟩,
        ⟨(Real.exp (g.dataAt a * 2) + -1) * (Real.exp (g.dataAt a * 2) + 1) ^ (-1 : ℝ), [g.size + 4, g.size + 7], .mul (g.size + 4) (g.size + 7), "*", 0⟩]⟩, g.size + 8) := by
    unfold mulNode mkNode
    rw [dataAt_chunk g [⟨2, [], .leaf, "", 0⟩,
        ⟨g.dataAt a * 2, [a, g.size], .mul a g.size, "*", 0⟩,
        ⟨Real.exp (g.dataAt a * 2), [g.size + 1], .exp (g.size + 1), "exp", 0⟩,
        ⟨-1, [], .leaf, "", 0⟩,
        ⟨Real.exp (g.dataAt a * 2) + -1, [g.size + 2, g.size + 3], .add (g.size + 2) (g.size + 3), "+", 0⟩,
        ⟨1, [], .leaf, "", 0⟩,
        ⟨Real.exp (g.dataAt a * 2) + 1, [g.size + 2, g.size + 5], .add (g.size + 2) (g.size + 5), "+", 0⟩,
        ⟨(Real.exp (g.dataAt a * 2) + 1) ^ (-1 : ℝ), [g.size + 6], .pow (g.size + 6) (-1), "pow_", 0⟩] 4, dataAt_chunk g [⟨2, [], .leaf, "", 0⟩,
        ⟨g.dataAt a * 2, [a, g.size], .mul a g.size, "*", 0⟩,
        ⟨Real.exp (g.dataAt a * 2), [g.size + 1], .exp (g.size + 1), "exp", 0⟩,
        ⟨-1, [], .leaf, "", 0⟩,
        ⟨Real.exp (g.dataAt a * 2) + -1, [g.size + 2, g.size + 3], .add (g.size + 2) (g.size + 3), "+", 0⟩,
        ⟨1, [], .leaf, "", 0⟩,
        ⟨Real.exp (g.dataAt a * 2) + 1, [g.size + 2, g.size + 5], .add (g.size + 2) (g.size + 5), "+", 0⟩,
        ⟨(Real.exp (g.dataAt a * 2) + 1) ^ (-1 : ℝ), [g.size + 6], .pow (g.size + 6) (-1), "pow_", 0⟩] 7,
      List.Nodup.dedup (by simp), size_chunk]
    simp [dataAt]
  have e9 : (⟨g.nodes ++ [⟨2, [], .leaf, "", 0⟩,
        ⟨g.dataAt a * 2, [a, g.size], .mul a g.size, "*", 0⟩,
        ⟨Real.exp (g.dataAt a * 2), [g.size + 1], .exp (g.size + 1), "exp", 0⟩,
        ⟨-1, [], .leaf, "", 0⟩,
        ⟨Real.exp (g.dataAt a * 2) + -1, [g.size + 2, g.size + 3], .add (g.size + 2) (g.size + 3), "+", 0⟩,
        ⟨1, [], .leaf, "", 0⟩,
        ⟨Real.exp (g.dataAt a * 2) + 1, [g.size + 2, g.size + 5], .add (g.size + 2) (g.size + 5), "+", 0⟩,
        ⟨(Real.exp (g.dataAt a * 2) + 1) ^ (-1 : ℝ), [g.size + 6], .pow (g.size + 6) (-1), "pow_", 0⟩,
        ⟨(Real.exp (g.dataAt a * 2) + -1) * (Real.exp (g.dataAt a * 2) + 1) ^ (-1 : ℝ), [g.size + 4, g.size + 7], .mul (g.size + 4) (g.size + 7), "*", 0⟩]⟩ : Graph ℝ).dataAt (g.size + 8) = (Real.exp (g.dataAt a * 2) + -1) * (Real.exp (g.dataAt a * 2) + 1) ^ (-1 : ℝ) := by
    rw [dataAt_chunk g [⟨2, [], .leaf, "", 0⟩,
        ⟨g.dataAt a * 2, [a, g.size], .mul a g.size, "*", 0⟩,
        ⟨Real.exp (g.dataAt a * 2), [g.size + 1], .exp (g.size + 1), "exp", 0⟩,
        ⟨-1, [], .leaf, "", 0⟩,
        ⟨Real.exp (g.dataAt a * 2) + -1, [g.size + 2, g.size + 3], .add (g.size + 2) (g.size + 3), "+", 0⟩,
        ⟨1, [], .leaf, "", 0⟩,
        ⟨Real.exp (g.dataAt a * 2) + 1, [g.size + 2, g.size + 5], .add (g.size + 2) (g.size + 5), "+", 0⟩,
        ⟨(Real.exp (g.dataAt a * 2) + 1) ^ (-1 : ℝ), [g.size + 6], .pow (g.size + 6) (-1), "pow_", 0⟩,
        ⟨(Real.exp (g.dataAt a * 2) + -1) * (Real.exp (g.dataAt a * 2) + 1) ^ (-1 : ℝ), [g.size + 4, g.size + 7], .mul (g.size + 4) (g.size + 7), "*", 0⟩] 8]
    simp [dataAt]
  unfold tanhNode
  rw [show g.leaf (2 : ℝ) = (⟨g.nodes ++ [⟨2, [], .leaf, "", 0⟩]⟩, g.size) from rfl]
  dsimp only
  rw [e1]
  dsimp only
  rw [e2]
  dsimp only
  rw [show (⟨g.nodes ++ [⟨2, [], .leaf, "", 0⟩,
        ⟨g.dataAt a * 2, [a, g.size], .mul a g.size, "*", 0⟩,
        ⟨Real.exp (g.dataAt a * 2), [g.size + 1], .exp (g.size + 1), "exp", 0⟩]⟩ : Graph ℝ).leaf (-1 : ℝ) = (⟨g.nodes ++ [⟨2, [], .leaf, "", 0⟩,
        ⟨g.dataAt a * 2, [a, g.size], .mul a g.size, "*", 0⟩,
        ⟨Real.exp (g.dataAt a * 2), [g.size + 1], .exp (g.size + 1), "exp", 0⟩,
        ⟨-1, [], .leaf, "", 0⟩]⟩, g.size + 3) from
    by unfold leaf mkNode; rw [size_chunk]; simp]
  dsimp only
  rw [e4]
  dsimp only
  rw [show (⟨g.nodes ++ [⟨2, [], .leaf, "", 0⟩,
        ⟨g.dataAt a * 2, [a, g.size], .mul a g.size, "*", 0⟩,
        ⟨Real.exp (g.dataAt a * 2), [g.size + 1], .exp (g.size + 1), "exp", 0⟩,
        ⟨-1, [], .leaf, "", 0⟩,
        ⟨Real.exp (g.dataAt a * 2) + -1, [g.size + 2, g.size + 3], .add (g.size + 2) (g.size + 3), "+", 0⟩]⟩ : Graph ℝ).leaf (1 : ℝ) = (⟨g.nodes ++ [⟨2, [], .leaf, "", 0⟩,
        ⟨g.dataAt a * 2, [a, g.size], .mul a g.size, "*", 0⟩,
        ⟨Real.exp (g.dataAt a * 2), [g.size + 1], .exp (g.size + 1), "exp", 0⟩,
        ⟨-1, [], .leaf, "", 0⟩,
        ⟨Real.exp (g.dataAt a * 2) + -1, [g.size + 2, g.size + 3], .add (g.size + 2) (g.size + 3), "+", 0⟩,
        ⟨1, [], .leaf, "", 0⟩]⟩, g.size + 5) from
    by unfold leaf mkNode; rw [size_chunk]; simp]
  dsimp only
  rw [e6]
  dsimp only
  rw [e7]
  dsimp only
  rw [e8]
  dsimp only
  rw [e9]
  unfold mkNode
  rw [List.Nodup.dedup (by simp), size_chunk]
  unfold tanhChunk
  simp

end Graph

/-- Stand-in scalar power function for backward passes over graphs that
contain no `pow` node (the `pow` dispatch branch is the only consumer
of the argument `p` of `backward`). -/
def noPow : ℤ → ℤ → ℤ := fun _ _ => 0

/-- Closed form of the value stored by the tanh node: the composite
`(e - 1) * (e + 1)**-1` built by `Value.tanh` equals
`(e^(2x) - 1) / (e^(2x) + 1)`. -/
theorem tanh_val (x : ℝ) : (Real.exp (x * 2) + -1) * (Real.exp (x * 2) + 1) ^ (-1 : ℝ)
    = (Real.exp (2 * x) - 1) / (Real.exp (2 * x) + 1) := by
  rw [mul_comm x 2, show ((-1 : ℝ)) = ((-1 : ℤ) : ℝ) by norm_num, Real.rpow_intCast,
    zpow_neg_one, div_eq_mul_inv, sub_eq_add_neg]
  norm_num

theorem tanh_val_bounds (y : ℝ) :
    -1 < (Real.exp y - 1) / (Real.exp y + 1) ∧ (Real.exp y - 1) / (Real.exp y + 1) < 1 := by
  have h := Real.exp_pos y
  have hd : 0 < Real.exp y + 1 := by linarith
  constructor
  · rw [lt_div_iff₀ hd]
    linarith
  · rw [div_lt_one hd]
    linarith

/-- Diamond-shaped example graph over `ℤ`: a leaf reachable from the
root along two distinct paths (`a`; `u = -a`; `v = -a`; `y = u + v`). -/
def diamond : Graph ℤ :=
  (((((Graph.empty : Graph ℤ).leaf 5).1.negNode 0).1.negNode 0).1.addNode 1 2).1

/-- Example graph over `ℤ` with a node (index 3) unreachable from the
root `2 = 0 + 1`. -/
def withStray : Graph ℤ :=
  (((((Graph.empty : Graph ℤ).leaf 5).1.leaf 7).1.addNode 0 1).1.leaf 9).1

/-! Claims.  Integer scalars are used for concrete scenarios whose
values and all intermediates are integers, which Python floats
represent exactly; symbolic claims about `+`, `*` and negation are
stated over an arbitrary commutative ring (which covers the real
idealisation of floats), and claims about `**`, `exp` and `tanh` over
`ℝ`. -/

/-- C1: with leaves a = 2.0, b = -3.0, c = 10.0, f = -2.0 and
e = a*b, d = e + c, L = d*f, the forward values are e = -6.0, d = 4.0,
L = -8.0, and after `L.backward()` the gradients are L = 1.0, d = -2.0,
f = 4.0, e = -2.0, c = -2.0, a = 6.0, b = -4.0. -/
theorem end_to_end_scenario :
    (let sa := (Graph.empty : Graph ℤ).leaf 2
     let sb := sa.1.leaf (-3)
     let sc := sb.1.leaf 10
     let se := sc.1.mulNode sa.2 sb.2
     let sd := se.1.addNode se.2 sc.2
     let sf := sd.1.leaf (-2)
     let sL := sf.1.mulNode sd.2 sf.2
     let r := sL.1.backward noPow sL.2
     se.1.dataAt se.2 = -6 ∧ sd.1.dataAt sd.2 = 4 ∧ sL.1.dataAt sL.2 = -8 ∧
     r.gradAt sL.2 = 1 ∧ r.gradAt sd.2 = -2 ∧ r.gradAt sf.2 = 4 ∧
     r.gradAt se.2 = -2 ∧ r.gradAt sc.2 = -2 ∧ r.gradAt sa.2 = 6 ∧ r.gradAt sb.2 = -4) := by
  decide

open Graph in
/-- C2: for every acyclic graph (every arena the constructors can
build is `Lowered`: operands exist before the node recording them, and
conversely every `Lowered` arena is acyclic) and every root node,
`backward` builds an ordered sequence containing exactly the nodes
reachable from the root, each exactly once even when reachable along
several paths, in which every node appears after all of its operands;
the reverse walk of `backward` folds over the reverse of this sequence,
hence runs each recorded node's backward rule exactly once. -/
theorem backward_topo_correct {α : Type} (g : Graph α) (root : Nat)
    (hL : g.Lowered) (hr : root < g.size) :
    (g.backwardTopo root).Nodup ∧
    (∀ i, i ∈ g.backwardTopo root ↔ g.Reach root i) ∧
    (∀ k, (hk : k < (g.backwardTopo root).length) →
      ∀ j ∈ g.prevAt ((g.backwardTopo root).get ⟨k, hk⟩),
        j ∈ (g.backwardTopo root).take k) ∧
    (∀ i, g.Reach root i → (g.backwardTopo root).reverse.count i = 1) :=
  ⟨nodup_backwardTopo hL hr, mem_backwardTopo hL hr,
    prev_before_backwardTopo hL hr, fun _ hi => count_backwardTopo hL hr hi⟩

open Graph in
/-- Witness for C2 at the diamond graph, root 3. -/
theorem backward_topo_correct_witness :
    (diamond.backwardTopo 3).Nodup ∧
    (∀ i, i ∈ diamond.backwardTopo 3 ↔ diamond.Reach 3 i) ∧
    (∀ k, (hk : k < (diamond.backwardTopo 3).length) →
      ∀ j ∈ diamond.prevAt ((diamond.backwardTopo 3).get ⟨k, hk⟩),
        j ∈ (diamond.backwardTopo 3).take k) ∧
    (∀ i, diamond.Reach 3 i → (diamond.backwardTopo 3).reverse.count i = 1) :=
  backward_topo_correct diamond 3 (by decide) (by decide)

/-- C3: for a leaf x (gradient initially 0), backward on y = x + x
accumulates x.grad = 2, and backward on y = x * x accumulates
x.grad = 2 * x.value. -/
theorem fanout_accumulation {α : Type} [CommRing α] (p : α → α → α) (x : α) :
    (let sx := (Graph.empty : Graph α).leaf x
     let sy := sx.1.addNode sx.2 sx.2
     (sy.1.backward p sy.2).gradAt sx.2 = 2) ∧
    (let sx := (Graph.empty : Graph α).leaf x
     let sy := sx.1.mulNode sx.2 sx.2
     (sy.1.backward p sy.2).gradAt sx.2 = 2 * x) := by
  constructor
  · simp [Graph.backward, Graph.backwardTopo, Graph.buildTopo, Graph.applyBackward,
      Graph.leaf, Graph.addNode, Graph.mkNode, Graph.empty, Graph.size,
      Graph.setGrad, Graph.addGrad, Graph.gradAt, Graph.dataAt, Graph.opAt, Graph.prevAt]
    ring
  · simp [Graph.backward, Graph.backwardTopo, Graph.buildTopo, Graph.applyBackward,
      Graph.leaf, Graph.mulNode, Graph.mkNode, Graph.empty, Graph.size,
      Graph.setGrad, Graph.addGrad, Graph.gradAt, Graph.dataAt, Graph.opAt, Graph.prevAt]
    ring

open Graph in
/-- Counterexample for C4: `Value(0.0) ** -1` raises
(`ZeroDivisionError`) although its base is not negative, where the
claim predicts success with value `0.0 ** -1`. -/
theorem pow_zero_base_error :
    (Graph.empty.leaf (0 : ℝ)).1.powNode 0 (-1) = .error .zeroDivisionError ∧
    ¬ ((Graph.empty.leaf (0 : ℝ)).1.dataAt 0 < 0) := by
  have hd : (Graph.empty.leaf (0 : ℝ)).1.dataAt 0 = 0 := by
    simp [Graph.leaf, Graph.mkNode, Graph.empty, Graph.dataAt]
  constructor
  · unfold Graph.powNode
    rw [hd]
    unfold floatPow
    rw [if_neg (by rintro ⟨h1, _⟩; linarith), if_pos ⟨rfl, by norm_num⟩]
  · rw [hd]
    norm_num

open Graph in
/-- C4 amended: the power construction fails, surfaced at construction
time, exactly when the base is negative and the exponent non-integer
(a `TypeError` from `float` applied to the complex result of `**`) or
when the base is zero and the exponent negative (a
`ZeroDivisionError` from `**` itself); for every other combination it
succeeds and appends a node with value `a.value ** k`. -/
theorem pow_domain_spec (g : Graph ℝ) (a : Nat) (k : ℝ) :
    (g.powNode a k = .error .typeError ↔ g.dataAt a < 0 ∧ ¬ IsIntExp k) ∧
    (g.powNode a k = .error .zeroDivisionError ↔ g.dataAt a = 0 ∧ k < 0) ∧
    (¬ (g.dataAt a < 0 ∧ ¬ IsIntExp k) → ¬ (g.dataAt a = 0 ∧ k < 0) →
      g.powNode a k = .ok (g.mkNode (g.dataAt a ^ k) [a] (.pow a k) "pow_")) := by
  unfold powNode floatPow
  by_cases h1 : g.dataAt a < 0 ∧ ¬ IsIntExp k
  · rw [if_pos h1]
    refine ⟨by simp [h1], ?_, fun hc _ => absurd h1 hc⟩
    simp only [Except.error.injEq, reduceCtorEq, false_iff]
    rintro ⟨h0, _⟩
    rw [h0] at h1
    exact absurd h1.1 (lt_irrefl 0)
  · rw [if_neg h1]
    by_cases h2 : g.dataAt a = 0 ∧ k < 0
    · rw [if_pos h2]
      refine ⟨?_, by simp [h2], fun _ hc => absurd h2 hc⟩
      simp only [Except.error.injEq, reduceCtorEq, false_iff]
      exact h1
    · rw [if_neg h2]
      exact ⟨by simp [h1], by simp [h2], fun _ _ => rfl⟩

open Graph in
/-- Witness for C4 at base 4, exponent 2 (the success branch). -/
theorem pow_domain_spec_witness :
    ((Graph.empty.leaf (4 : ℝ)).1.powNode 0 2 = .error .typeError ↔
      (Graph.empty.leaf (4 : ℝ)).1.dataAt 0 < 0 ∧ ¬ IsIntExp 2) ∧
    ((Graph.empty.leaf (4 : ℝ)).1.powNode 0 2 = .error .zeroDivisionError ↔
      (Graph.empty.leaf (4 : ℝ)).1.dataAt 0 = 0 ∧ (2 : ℝ) < 0) ∧
    (¬ ((Graph.empty.leaf (4 : ℝ)).1.dataAt 0 < 0 ∧ ¬ IsIntExp 2) →
      ¬ ((Graph.empty.leaf (4 : ℝ)).1.dataAt 0 = 0 ∧ (2 : ℝ) < 0) →
      (Graph.empty.leaf (4 : ℝ)).1.powNode 0 2 =
        .ok ((Graph.empty.leaf (4 : ℝ)).1.mkNode
          ((Graph.empty.leaf (4 : ℝ)).1.dataAt 0 ^ (2 : ℝ)) [0] (.pow 0 2) "pow_")) :=
  pow_domain_spec (Graph.empty.leaf (4 : ℝ)).1 0 2

open Graph in
/-- C5: for every node `a` of the arena, `tanh` succeeds and returns a
node whose value is `(e^(2a) - 1) / (e^(2a) + 1)` (computed through the
compositional exp/add/divide sub-graph), whose stored operand set is
exactly the original input `a` (none of the intermediate nodes), and
whose backward rule adds `(1 - t^2) * out.grad` directly to `a`'s
gradient and touches no other gradient, bypassing the sub-graph's own
backward rules. -/
theorem tanh_short_circuit (g : Graph ℝ) (a : Nat) (p : ℝ → ℝ → ℝ) (gr : ℝ)
    (ha : a < g.size) :
    ∃ gt : Graph ℝ,
      g.tanhNode a = .ok (gt, g.size + 9) ∧
      gt.dataAt (g.size + 9) =
        (Real.exp (2 * g.dataAt a) - 1) / (Real.exp (2 * g.dataAt a) + 1) ∧
      gt.prevAt (g.size + 9) = [a] ∧
      gt.opAt (g.size + 9) = .tanh a (gt.dataAt (g.size + 9)) ∧
      ((gt.setGrad (g.size + 9) gr).applyBackward p (g.size + 9)).gradAt a =
        (gt.setGrad (g.size + 9) gr).gradAt a + (1 - gt.dataAt (g.size + 9) ^ 2) * gr ∧
      (∀ j, j ≠ a →
        ((gt.setGrad (g.size + 9) gr).applyBackward p (g.size + 9)).gradAt j =
          (gt.setGrad (g.size + 9) gr).gradAt j) := by
  have h := tanhNode_eq g a ha
  have hd : (⟨g.nodes ++ tanhChunk (g.dataAt a) a g.size⟩ : Graph ℝ).dataAt (g.size + 9)
      = (Real.exp (g.dataAt a * 2) + -1) * (Real.exp (g.dataAt a * 2) + 1) ^ (-1 : ℝ) := by
    rw [dataAt_chunk]
    simp [tanhChunk, dataAt]
  have hp : (⟨g.nodes ++ tanhChunk (g.dataAt a) a g.size⟩ : Graph ℝ).prevAt (g.size + 9)
      = [a] := by
    rw [prevAt_chunk]
    simp [tanhChunk, prevAt]
  have hop : (⟨g.nodes ++ tanhChunk (g.dataAt a) a g.size⟩ : Graph ℝ).opAt (g.size + 9)
      = .tanh a ((Real.exp (g.dataAt a * 2) + -1) *
          (Real.exp (g.dataAt a * 2) + 1) ^ (-1 : ℝ)) := by
    rw [opAt_chunk]
    simp [tanhChunk, opAt]
  have hsz : (⟨g.nodes ++ tanhChunk (g.dataAt a) a g.size⟩ : Graph ℝ).size = g.size + 10 := by
    rw [size_chunk]
    simp [tanhChunk]
  have hszsg : ((⟨g.nodes ++ tanhChunk (g.dataAt a) a g.size⟩ : Graph ℝ).setGrad
      (g.size + 9) gr).size = g.size + 10 := by
    rw [size_setGrad, hsz]
  refine ⟨_, h, hd.trans (tanh_val _), hp, ?_, ?_, ?_⟩
  · rw [hop, hd]
  · have hgr : ((⟨g.nodes ++ tanhChunk (g.dataAt a) a g.size⟩ : Graph ℝ).setGrad
        (g.size + 9) gr).gradAt (g.size + 9) = gr := by
      refine gradAt_setGrad_self _ _ ?_
      rw [hsz]
      omega
    unfold applyBackward
    rw [opAt_setGrad, hop]
    dsimp only
    rw [hgr, gradAt_addGrad_self _ _ (by rw [hszsg]; omega), hd]
  · intro j hj
    unfold applyBackward
    rw [opAt_setGrad, hop]
    dsimp only
    rw [gradAt_addGrad_ne _ _ (Ne.symm hj)]

open Graph in
/-- Witness for C5 at the arena holding the single leaf 0. -/
theorem tanh_short_circuit_witness :
    ∃ gt : Graph ℝ,
      (Graph.empty.leaf (0 : ℝ)).1.tanhNode 0 =
        .ok (gt, (Graph.empty.leaf (0 : ℝ)).1.size + 9) ∧
      gt.dataAt ((Graph.empty.leaf (0 : ℝ)).1.size + 9) =
        (Real.exp (2 * (Graph.empty.leaf (0 : ℝ)).1.dataAt 0) - 1) /
          (Real.exp (2 * (Graph.empty.leaf (0 : ℝ)).1.dataAt 0) + 1) ∧
      gt.prevAt ((Graph.empty.leaf (0 : ℝ)).1.size + 9) = [0] ∧
      gt.opAt ((Graph.empty.leaf (0 : ℝ)).1.size + 9) =
        .tanh 0 (gt.dataAt ((Graph.empty.leaf (0 : ℝ)).1.size + 9)) ∧
      ((gt.setGrad ((Graph.empty.leaf (0 : ℝ)).1.size + 9) 1).applyBackward
          (fun u v => u ^ v) ((Graph.empty.leaf (0 : ℝ)).1.size + 9)).gradAt 0 =
        (gt.setGrad ((Graph.empty.leaf (0 : ℝ)).1.size + 9) 1).gradAt 0 +
          (1 - gt.dataAt ((Graph.empty.leaf (0 : ℝ)).1.size + 9) ^ 2) * 1 ∧
      (∀ j, j ≠ 0 →
        ((gt.setGrad ((Graph.empty.leaf (0 : ℝ)).1.size + 9) 1).applyBackward
            (fun u v => u ^ v) ((Graph.empty.leaf (0 : ℝ)).1.size + 9)).gradAt j =
          (gt.setGrad ((Graph.empty.leaf (0 : ℝ)).1.size + 9) 1).gradAt j) :=
  tanh_short_circuit (Graph.empty.leaf (0 : ℝ)).1 0 (fun u v => u ^ v) 1
    (by simp [Graph.leaf, Graph.mkNode, Graph.empty, Graph.size])

open Graph in
/-- Counterexample for C6: a node built as y = x + x stores the operand
collection `{x}` with one entry, not the two-entry sequence `(x, x)`
the claim describes (`_prev` is a Python set, which collapses the
duplicate). -/
theorem operand_multiplicity_collapses :
    (((Graph.empty : Graph ℤ).leaf 5).1.addNode 0 0).1.prevAt 1 = [0] ∧
    ((((Graph.empty : Graph ℤ).leaf 5).1.addNode 0 0).1.prevAt 1).length ≠ 2 := by
  decide

open Graph in
/-- C6 amended: the stored operand collection is a set: the direct
inputs with duplicates collapsed (0, 1, or 2 distinct entries, empty
for leaves, duplicate-free); in particular y = x + x records the single
operand `x`. -/
theorem operand_set_dedup {α : Type} [Zero α] [Add α] [Mul α] [Neg α]
    (g : Graph α) (a b : Nat) (d : α) :
    (g.leaf d).1.prevAt g.size = [] ∧
    (g.negNode a).1.prevAt g.size = [a] ∧
    (g.addNode a b).1.prevAt g.size = [a, b].dedup ∧
    (g.mulNode a b).1.prevAt g.size = [a, b].dedup ∧
    ((g.addNode a b).1.prevAt g.size).Nodup ∧
    (g.addNode a a).1.prevAt g.size = [a] := by
  refine ⟨?_, ?_, ?_, ?_, ?_, ?_⟩
  · simp [Graph.leaf, Graph.prevAt_mkNode]
  · simp [Graph.negNode, Graph.prevAt_mkNode]
  · simp [Graph.addNode, Graph.prevAt_mkNode]
  · simp [Graph.mulNode, Graph.prevAt_mkNode]
  · simp [Graph.addNode, Graph.prevAt_mkNode, List.nodup_dedup]
  · simp [Graph.addNode, Graph.prevAt_mkNode]

/-- C7: product rule: for distinct leaves a, b (gradients initially 0)
and y = a * b, backward on y gives a.grad = b.value and
b.grad = a.value, for all values. -/
theorem product_rule {α : Type} [CommRing α] (p : α → α → α) (x y : α) :
    (let sa := (Graph.empty : Graph α).leaf x
     let sb := sa.1.leaf y
     let sy := sb.1.mulNode sa.2 sb.2
     let r := sy.1.backward p sy.2
     r.gradAt sa.2 = y ∧ r.gradAt sb.2 = x) := by
  simp [Graph.backward, Graph.backwardTopo, Graph.buildTopo, Graph.applyBackward,
    Graph.leaf, Graph.mulNode, Graph.mkNode, Graph.empty, Graph.size,
    Graph.setGrad, Graph.addGrad, Graph.gradAt, Graph.dataAt, Graph.opAt, Graph.prevAt]

open Graph in
/-- C8: for a leaf x, tanh(x).value lies strictly between -1 and 1, and
after backward on the tanh node its gradient is 1 and the gradient
accumulated into x is (1 - tanh(x).value^2) times it. -/
theorem tanh_bound_and_derivative (x : ℝ) :
    ∃ gt : Graph ℝ,
      (Graph.empty.leaf x).1.tanhNode 0 = .ok (gt, 10) ∧
      (-1 < gt.dataAt 10 ∧ gt.dataAt 10 < 1) ∧
      (gt.backward (fun u v => u ^ v) 10).gradAt 10 = 1 ∧
      (gt.backward (fun u v => u ^ v) 10).gradAt 0 = 1 - gt.dataAt 10 ^ 2 := by
  have h := tanhNode_eq (Graph.empty.leaf x).1 0
    (by simp [leaf, mkNode, empty, size])
  simp [leaf, mkNode, empty, size, dataAt, tanhChunk] at h
  refine ⟨_, h, ⟨?_, ?_⟩, ?_, ?_⟩
  · simp [dataAt, tanh_val]
    exact (tanh_val_bounds (2 * x)).1
  · simp [dataAt, tanh_val]
    exact (tanh_val_bounds (2 * x)).2
  · simp [backward, backwardTopo, buildTopo, size, prevAt, opAt, setGrad, addGrad,
      gradAt, dataAt, applyBackward]
  · simp [backward, backwardTopo, buildTopo, size, prevAt, opAt, setGrad, addGrad,
      gradAt, dataAt, applyBackward]

open Graph in
/-- C9: the backward pass mutates only gradient fields of nodes
reachable from the root: every node's value, stored operand set and
operation tag are unchanged, and the gradient of every node not
reachable from the root is unchanged.  (`Lowered` and `WF` hold for
every arena the constructors build: operands exist before the node
recording them, and `_prev` is the set of the nodes the closure
captures.) -/
theorem backward_frame {α : Type} [CommRing α] (p : α → α → α) (g : Graph α) (root : Nat)
    (hL : g.Lowered) (hWF : g.WF) (hr : root < g.size) :
    (∀ i, (g.backward p root).dataAt i = g.dataAt i) ∧
    (∀ i, (g.backward p root).prevAt i = g.prevAt i) ∧
    (∀ i, (g.backward p root).opAt i = g.opAt i) ∧
    (∀ i, (g.backward p root).tagAt i = g.tagAt i) ∧
    (∀ i, ¬ g.Reach root i → (g.backward p root).gradAt i = g.gradAt i) :=
  ⟨dataAt_backward p g root, prevAt_backward p g root, opAt_backward p g root,
    tagAt_backward p g root, fun _ hi => gradAt_backward_of_not_reach p hL hWF hr hi⟩

open Graph in
/-- Witness for C9 at the arena with a stray node, root 2. -/
theorem backward_frame_witness :
    (∀ i, (withStray.backward noPow 2).dataAt i = withStray.dataAt i) ∧
    (∀ i, (withStray.backward noPow 2).prevAt i = withStray.prevAt i) ∧
    (∀ i, (withStray.backward noPow 2).opAt i = withStray.opAt i) ∧
    (∀ i, (withStray.backward noPow 2).tagAt i = withStray.tagAt i) ∧
    (∀ i, ¬ withStray.Reach 2 i →
      (withStray.backward noPow 2).gradAt i = withStray.gradAt i) :=
  backward_frame noPow withStray 2 (by decide) (by decide) (by decide)

/-- Counterexample for C10: for z = (a + b) + c, the second backward
pass leaves a.grad = 3, not double its single-pass value 1: the
doubled gradient of the interior node a + b is propagated onward, so
nodes at depth two more than double. -/
theorem second_backward_not_double :
    let sa := (Graph.empty : Graph ℤ).leaf 5
    let sb := sa.1.leaf 7
    let sy := sb.1.addNode sa.2 sb.2
    let sc := sy.1.leaf 11
    let sz := sc.1.addNode sy.2 sc.2
    let r1 := sz.1.backward noPow sz.2
    let r2 := r1.backward noPow sz.2
    r1.gradAt sa.2 = 1 ∧ r2.gradAt sa.2 = 3 ∧ r2.gradAt sa.2 ≠ 2 * r1.gradAt sa.2 := by
  decide

set_option maxHeartbeats 1000000 in
open Graph in
/-- C10 amended: a second backward call on the same root leaves the
root's gradient at exactly 1 (it is overwritten, not accumulated), and
in the shallow example y = a + b with distinct leaves both leaf
gradients double to 2; nodes deeper in the graph can receive more than
double (see the counterexample). -/
theorem second_backward_root_and_shallow {α : Type} [CommRing α] (p : α → α → α)
    (g : Graph α) (root : Nat) (hL : g.Lowered) (hWF : g.WF) (hr : root < g.size)
    (x y : α) :
    ((g.backward p root).backward p root).gradAt root = 1 ∧
    (let sa := (Graph.empty : Graph α).leaf x
     let sb := sa.1.leaf y
     let sy := sb.1.addNode sa.2 sb.2
     let r2 := (sy.1.backward p sy.2).backward p sy.2
     r2.gradAt sy.2 = 1 ∧ r2.gradAt sa.2 = 2 ∧ r2.gradAt sb.2 = 2) := by
  constructor
  · exact gradAt_backward_root p (lowered_backward p g root hL) (wf_backward p g root hWF)
      (by rw [size_backward]; exact hr)
  · have e1 : ((((Graph.empty : Graph α).leaf x).1.leaf y).1.addNode
          ((Graph.empty : Graph α).leaf x).2 (((Graph.empty : Graph α).leaf x).1.leaf y).2).1.backward p
          (((((Graph.empty : Graph α).leaf x).1.leaf y).1.addNode
            ((Graph.empty : Graph α).leaf x).2 (((Graph.empty : Graph α).leaf x).1.leaf y).2).2) =
        ⟨[⟨x, [], .leaf, "", 1⟩, ⟨y, [], .leaf, "", 1⟩, ⟨x + y, [0, 1], .add 0 1, "+", 1⟩]⟩ := by
      simp [Graph.backward, Graph.backwardTopo, Graph.buildTopo, Graph.applyBackward,
        Graph.leaf, Graph.addNode, Graph.mkNode, Graph.empty, Graph.size,
        Graph.setGrad, Graph.addGrad, Graph.gradAt, Graph.dataAt, Graph.opAt, Graph.prevAt]
    dsimp only
    rw [e1]
    simp [Graph.backward, Graph.backwardTopo, Graph.buildTopo, Graph.applyBackward,
      Graph.leaf, Graph.addNode, Graph.mkNode, Graph.empty, Graph.size,
      Graph.setGrad, Graph.addGrad, Graph.gradAt, Graph.dataAt, Graph.opAt, Graph.prevAt]
    ring

open Graph in
/-- Witness for C10 at a one-leaf arena and concrete leaf values. -/
theorem second_backward_root_and_shallow_witness :
    ((((Graph.empty : Graph ℤ).leaf 4).1.backward noPow 0).backward noPow 0).gradAt 0 = 1 ∧
    (let sa := (Graph.empty : Graph ℤ).leaf 3
     let sb := sa.1.leaf 6
     let sy := sb.1.addNode sa.2 sb.2
     let r2 := (sy.1.backward noPow sy.2).backward noPow sy.2
     r2.gradAt sy.2 = 1 ∧ r2.gradAt sa.2 = 2 ∧ r2.gradAt sb.2 = 2) :=
  second_backward_root_and_shallow noPow ((Graph.empty : Graph ℤ).leaf 4).1 0
    (by decide) (by decide) (by decide) 3 6

end Micrograd
